import Mathlib

/-!
Verification of the model-listing script (src/list_models.py).

The script reads the credential `GEMINI_API_KEY` from the environment;
if it is falsy (absent or empty) it prints a missing-key diagnostic and
stops.  Otherwise it prints a progress message and iterates over the
descriptors returned by the remote model-listing service, printing a
four-line block for each descriptor whose supported generation methods
contain the string "generateContent"; any fault raised during the
listing is caught and turned into a single diagnostic line.

We embed the script as a pure function of its two inputs: the result of
the credential lookup (`Option String`) and the behaviour of the remote
service (`ServiceResponse`: the descriptors the iterator yields, and an
optional fault raised after them).  The observable output is the list of
strings passed to `print`, in order.
-/

namespace ListModels

/-- A model descriptor as received from the service: the fields the
script reads (`m.name`, `m.display_name`, `m.supported_generation_methods`). -/
structure Model where
  name : String
  display_name : String
  supported_generation_methods : List String
deriving DecidableEq, Repr

/-- The behaviour of the remote enumeration as seen from the `for` loop:
the descriptors the iterator yields, in order, followed either by normal
exhaustion (`fault = none`) or by a raised fault with message `e`
(`fault = some e`).  A fault raised by the `genai.list_models()` call
itself is the case `yielded = []`. -/
structure ServiceResponse where
  yielded : List Model
  fault : Option String
deriving DecidableEq, Repr

/-- `print("❌ Error: API Key not found in .env file.")` -/
def missingKeyMsg : String := "❌ Error: API Key not found in .env file."

/-- `print("Fetching available models...\n")` -/
def fetchingMsg : String := "Fetching available models...\n"

/-- The prefix of the `except` handler's diagnostic,
`f"❌ Error fetching models: {e}"`. -/
def errorFetchingMsg : String := "❌ Error fetching models: "

/-- `"-" * 30`: the separator line of thirty hyphens. -/
def sepLine : String := String.mk (List.replicate 30 (Char.ofNat 45))

/-- A single-quote character (Python uses it when rendering a list of
strings in an f-string). -/
def singleQuote : String := String.singleton (Char.ofNat 39)

/-- Python rendering of one string inside a list display. -/
def pyStrLit (s : String) : String := singleQuote ++ s ++ singleQuote

/-- Python rendering of a list of strings, as interpolated by
`f"Methods: {m.supported_generation_methods}"`. -/
def pyListRepr (xs : List String) : String :=
  "[" ++ String.intercalate ", " (xs.map pyStrLit) ++ "]"

/-- The test `'generateContent' in m.supported_generation_methods`:
exact-string membership. -/
def generateContentFilter (m : Model) : Bool :=
  m.supported_generation_methods.contains "generateContent"

/-- The four prints executed for one surviving descriptor `m`. -/
def modelBlock (m : Model) : List String :=
  ["Model Name: " ++ m.name,
   "Display Name: " ++ m.display_name,
   "Methods: " ++ pyListRepr m.supported_generation_methods,
   sepLine]

/-- The prints performed by the `for m in genai.list_models():` loop over
the descriptors the iterator yields before it stops or raises. -/
def loopOutput : List Model → List String
  | [] => []
  | m :: ms => (if generateContentFilter m then modelBlock m else []) ++ loopOutput ms

/-- The `try`/`except Exception as e` region: the loop's prints, followed
by the handler's diagnostic if a fault was raised. -/
def tryExceptOutput (resp : ServiceResponse) : List String :=
  loopOutput resp.yielded ++
    (match resp.fault with
     | none => []
     | some e => [errorFetchingMsg ++ e])

/-- Python's `if not api_key:` on the result of `os.getenv`: truthy test,
true when the lookup returned `None` or the empty string. -/
def keyMissing : Option String → Bool
  | none => true
  | some s => s == ""

/-- The observable result of one run: the strings printed (in order),
whether the model enumerator (the network call) was reached, and a fault
escaping the top level, if any (the process would then terminate
abnormally). -/
structure RunResult where
  output : List String
  networkCalled : Bool
  uncaught : Option String
deriving DecidableEq, Repr

/-- The whole script, as a function of the credential lookup's result and
the service behaviour.  The `except Exception` handler converts any fault
of the enumeration into a printed diagnostic, so no fault is left
uncaught in either branch. -/
def run (apiKey : Option String) (resp : ServiceResponse) : RunResult :=
  if keyMissing apiKey then
    { output := [missingKeyMsg], networkCalled := false, uncaught := none }
  else
    { output := fetchingMsg :: tryExceptOutput resp, networkCalled := true, uncaught := none }

/-- Recognizer for a name line of a descriptor block (used to read the
surviving descriptors back off the printed output). -/
def isModelNameLine (s : String) : Bool :=
  "Model Name: ".data.isPrefixOf s.data

/-- A sample descriptor that supports content generation (for concrete
instances). -/
def sampleGen : Model :=
  { name := "models/gemini-pro"
    display_name := "Gemini Pro"
    supported_generation_methods := ["generateContent"] }

/-- A sample descriptor that does not support content generation (for
concrete instances). -/
def sampleEmbed : Model :=
  { name := "models/embedding-001"
    display_name := "Embedding 001"
    supported_generation_methods := ["embedContent"] }

/-! ### Helper lemmas about the printed strings -/

theorem string_append_ne_append (p q x y : String) (n : Nat)
    (hp : n < p.data.length) (hq : n < q.data.length)
    (h : p.data[n]? ≠ q.data[n]?) : p ++ x ≠ q ++ y := by
  intro heq
  apply h
  have hd := congrArg String.data heq
  rw [String.data_append, String.data_append] at hd
  calc p.data[n]? = (p.data ++ x.data)[n]? := (List.getElem?_append_left hp).symm
    _ = (q.data ++ y.data)[n]? := by rw [hd]
    _ = q.data[n]? := List.getElem?_append_left hq

theorem string_append_ne (p x t : String) (n : Nat)
    (hp : n < p.data.length) (h : p.data[n]? ≠ t.data[n]?) : p ++ x ≠ t := by
  intro heq
  apply h
  have hd := congrArg String.data heq
  rw [String.data_append] at hd
  calc p.data[n]? = (p.data ++ x.data)[n]? := (List.getElem?_append_left hp).symm
    _ = t.data[n]? := by rw [hd]

theorem string_append_left_cancel {p x y : String} (h : p ++ x = p ++ y) : x = y := by
  have hd := congrArg String.data h
  rw [String.data_append, String.data_append] at hd
  exact String.ext (List.append_cancel_left hd)

theorem not_prefix_append_of_mismatch (p q x : List Char) (n : Nat)
    (hp : n < p.length) (hq : n < q.length) (h : p[n]? ≠ q[n]?) :
    ¬ p <+: q ++ x := by
  rintro ⟨t, ht⟩
  apply h
  calc p[n]? = (p ++ t)[n]? := (List.getElem?_append_left hp).symm
    _ = (q ++ x)[n]? := by rw [ht]
    _ = q[n]? := List.getElem?_append_left hq

theorem isModelNameLine_name (nm : String) :
    isModelNameLine ("Model Name: " ++ nm) = true := by
  unfold isModelNameLine
  rw [List.isPrefixOf_iff_prefix, String.data_append]
  exact List.prefix_append _ _

theorem isModelNameLine_append_false (q s : String) (n : Nat)
    (hp : n < "Model Name: ".data.length) (hq : n < q.data.length)
    (h : ("Model Name: ".data)[n]? ≠ (q.data)[n]?) :
    isModelNameLine (q ++ s) = false := by
  have hnp : ¬ ("Model Name: ".data <+: (q ++ s).data) := by
    rw [String.data_append]
    exact not_prefix_append_of_mismatch _ _ _ n hp hq h
  unfold isModelNameLine
  rw [Bool.eq_false_iff]
  intro hc
  exact hnp (List.isPrefixOf_iff_prefix.mp hc)

theorem isModelNameLine_display (d : String) :
    isModelNameLine ("Display Name: " ++ d) = false :=
  isModelNameLine_append_false _ _ 0 (by decide) (by decide) (by decide)

theorem isModelNameLine_methods (r : String) :
    isModelNameLine ("Methods: " ++ r) = false :=
  isModelNameLine_append_false _ _ 1 (by decide) (by decide) (by decide)

theorem isModelNameLine_err (e : String) :
    isModelNameLine (errorFetchingMsg ++ e) = false :=
  isModelNameLine_append_false _ _ 0 (by decide) (by decide) (by decide)

theorem isModelNameLine_sep : isModelNameLine sepLine = false := by decide

theorem isModelNameLine_fetching : isModelNameLine fetchingMsg = false := by decide

theorem generateContentFilter_iff (m : Model) :
    generateContentFilter m = true ↔
      "generateContent" ∈ m.supported_generation_methods :=
  List.elem_iff

theorem filter_nameLine_modelBlock (m : Model) :
    (modelBlock m).filter isModelNameLine = ["Model Name: " ++ m.name] := by
  unfold modelBlock
  simp [List.filter, isModelNameLine_name, isModelNameLine_display,
    isModelNameLine_methods, isModelNameLine_sep]

theorem loopOutput_eq_flatMap (ms : List Model) :
    loopOutput ms = (ms.filter generateContentFilter).flatMap modelBlock := by
  induction ms with
  | nil => rfl
  | cons m ms ih =>
    rw [loopOutput, ih, List.filter_cons]
    by_cases hm : generateContentFilter m = true
    · rw [if_pos hm, if_pos hm, List.flatMap_cons]
    · rw [if_neg hm, if_neg hm, List.nil_append]

theorem filter_nameLine_loopOutput (ms : List Model) :
    (loopOutput ms).filter isModelNameLine
      = (ms.filter generateContentFilter).map (fun m => "Model Name: " ++ m.name) := by
  induction ms with
  | nil => rfl
  | cons m ms ih =>
    rw [loopOutput, List.filter_append, ih, List.filter_cons]
    by_cases hm : generateContentFilter m = true
    · rw [if_pos hm, if_pos hm, filter_nameLine_modelBlock, List.map_cons,
        List.singleton_append]
    · rw [if_neg hm, if_neg hm, List.filter_nil, List.nil_append]

theorem mem_loopOutput (s : String) (ms : List Model) :
    s ∈ loopOutput ms ↔ ∃ m ∈ ms, generateContentFilter m = true ∧ s ∈ modelBlock m := by
  induction ms with
  | nil => simp [loopOutput]
  | cons m ms ih =>
    rw [loopOutput, List.mem_append, ih]
    by_cases hm : generateContentFilter m = true
    · rw [if_pos hm]
      constructor
      · rintro (h | ⟨m1, hm1, hf1, hs1⟩)
        · exact ⟨m, List.mem_cons_self m ms, hm, h⟩
        · exact ⟨m1, List.mem_cons_of_mem m hm1, hf1, hs1⟩
      · rintro ⟨m1, hm1, hf1, hs1⟩
        rcases List.mem_cons.mp hm1 with rfl | hm2
        · exact Or.inl hs1
        · exact Or.inr ⟨m1, hm2, hf1, hs1⟩
    · rw [if_neg hm]
      constructor
      · rintro (h | ⟨m1, hm1, hf1, hs1⟩)
        · exact absurd h (List.not_mem_nil s)
        · exact ⟨m1, List.mem_cons_of_mem m hm1, hf1, hs1⟩
      · rintro ⟨m1, hm1, hf1, hs1⟩
        rcases List.mem_cons.mp hm1 with rfl | hm2
        · exact absurd hf1 hm
        · exact Or.inr ⟨m1, hm2, hf1, hs1⟩

theorem run_output_of_key (apiKey : Option String) (resp : ServiceResponse)
    (hk : keyMissing apiKey = false) :
    (run apiKey resp).output = fetchingMsg :: tryExceptOutput resp := by
  rw [run, if_neg (by simp [hk])]

/-! ### The claims -/

/-- Claim C1 (spec P4, fail-soft): when the credential is present and the
remote model-listing call itself raises a fault with description `e` (so
no descriptor was yielded), the run prints exactly the progress line
followed by the single diagnostic built from `❌ Error fetching models: `
and the description, and no descriptor block precedes or follows it. -/
theorem fetch_failure_single_diagnostic (apiKey : Option String)
    (resp : ServiceResponse) (e : String)
    (hk : keyMissing apiKey = false) (hy : resp.yielded = [])
    (hf : resp.fault = some e) :
    (run apiKey resp).output = [fetchingMsg, errorFetchingMsg ++ e]
      ∧ (run apiKey resp).output.filter isModelNameLine = [] := by
  have h1 : (run apiKey resp).output = [fetchingMsg, errorFetchingMsg ++ e] := by
    rw [run_output_of_key apiKey resp hk, tryExceptOutput, hy, hf]
    rfl
  refine ⟨h1, ?_⟩
  rw [h1]
  simp [List.filter_cons, isModelNameLine_fetching, isModelNameLine_err]

/-- Concrete instance of `fetch_failure_single_diagnostic`: credential
present, the listing call raises with message `timeout`. -/
theorem fetch_failure_single_diagnostic_witness :
    keyMissing (some "k") = false
      ∧ (ServiceResponse.mk [] (some "timeout")).yielded = []
      ∧ (ServiceResponse.mk [] (some "timeout")).fault = some "timeout"
      ∧ (run (some "k") (ServiceResponse.mk [] (some "timeout"))).output
          = [fetchingMsg, errorFetchingMsg ++ "timeout"] :=
  ⟨by decide, rfl, rfl,
    (fetch_failure_single_diagnostic (some "k") (ServiceResponse.mk [] (some "timeout"))
      "timeout" (by decide) rfl rfl).1⟩

/-- Claim C2 (spec P1, gating): when the credential lookup returns absent,
whatever the service would have answered, the model enumerator is never
reached (no network call) and the output is exactly the single
missing-credential diagnostic line. -/
theorem missing_credential_gating (resp : ServiceResponse) :
    (run none resp).output = [missingKeyMsg]
      ∧ (run none resp).networkCalled = false :=
  ⟨rfl, rfl⟩

/-- Claim C3 (spec P2, filter correctness): a yielded descriptor's block
appears in the printed output (its name line is printed) if and only if
its supported-methods sequence contains the exact string
`generateContent`; descriptors failing the test produce no output.
(Stated for responses whose descriptors carry distinct names, so that a
name line identifies its descriptor.) -/
theorem descriptor_appears_iff (apiKey : Option String) (resp : ServiceResponse)
    (m : Model) (hk : keyMissing apiKey = false) (hm : m ∈ resp.yielded)
    (hnd : (resp.yielded.map Model.name).Nodup) :
    ("Model Name: " ++ m.name) ∈ (run apiKey resp).output ↔
      "generateContent" ∈ m.supported_generation_methods := by
  rw [run_output_of_key apiKey resp hk, tryExceptOutput]
  constructor
  · intro h
    rcases List.mem_cons.mp h with h | h
    · exact absurd h (string_append_ne "Model Name: " m.name fetchingMsg 0
        (by decide) (by decide))
    rcases List.mem_append.mp h with h | h
    · rcases (mem_loopOutput _ _).mp h with ⟨m1, hm1, hf1, hs1⟩
      simp only [modelBlock, List.mem_cons, List.mem_singleton,
        List.not_mem_nil, or_false] at hs1
      rcases hs1 with h1 | h1 | h1 | h1
      · have hname : m.name = m1.name := string_append_left_cancel h1
        have hmm : m1 = m := List.inj_on_of_nodup_map hnd hm1 hm hname.symm
        exact (generateContentFilter_iff m).mp (hmm ▸ hf1)
      · exact absurd h1 (string_append_ne_append "Model Name: " "Display Name: "
          _ _ 0 (by decide) (by decide) (by decide))
      · exact absurd h1 (string_append_ne_append "Model Name: " "Methods: "
          _ _ 1 (by decide) (by decide) (by decide))
      · exact absurd h1 (string_append_ne "Model Name: " m.name sepLine 0
          (by decide) (by decide))
    · cases hfv : resp.fault with
      | none =>
        rw [hfv] at h
        exact absurd h (List.not_mem_nil _)
      | some e =>
        rw [hfv] at h
        simp only [List.mem_singleton] at h
        exact absurd h (string_append_ne_append "Model Name: " errorFetchingMsg
          _ _ 0 (by decide) (by decide) (by decide))
  · intro h
    have hf : generateContentFilter m = true := (generateContentFilter_iff m).mpr h
    apply List.mem_cons_of_mem
    apply List.mem_append_left
    exact (mem_loopOutput _ _).mpr ⟨m, hm, hf, by simp [modelBlock]⟩

/-- Concrete instance of `descriptor_appears_iff`: two descriptors, one
supporting content generation and one not. -/
theorem descriptor_appears_iff_witness :
    keyMissing (some "k") = false
      ∧ sampleGen ∈ [sampleGen, sampleEmbed]
      ∧ (([sampleGen, sampleEmbed] : List Model).map Model.name).Nodup
      ∧ (("Model Name: " ++ sampleGen.name) ∈
            (run (some "k") (ServiceResponse.mk [sampleGen, sampleEmbed] none)).output ↔
          "generateContent" ∈ sampleGen.supported_generation_methods) :=
  ⟨by decide, by decide, by decide,
    descriptor_appears_iff (some "k") (ServiceResponse.mk [sampleGen, sampleEmbed] none)
      sampleGen (by decide) (by decide) (by decide)⟩

/-- Claim C4 (spec P3, order preservation): the sequence of name lines in
the printed output equals the map of the filtered yielded descriptors in
their service order, and the filtered list is a sublist of the response
(so the surviving descriptors keep their relative order; nothing is
re-sorted). -/
theorem output_order_preserved (apiKey : Option String) (resp : ServiceResponse)
    (hk : keyMissing apiKey = false) :
    (run apiKey resp).output.filter isModelNameLine
        = (resp.yielded.filter generateContentFilter).map
            (fun m => "Model Name: " ++ m.name)
      ∧ List.Sublist (resp.yielded.filter generateContentFilter) resp.yielded := by
  refine ⟨?_, List.filter_sublist _⟩
  rw [run_output_of_key apiKey resp hk, tryExceptOutput, List.filter_cons,
    if_neg (by simp [isModelNameLine_fetching]), List.filter_append,
    filter_nameLine_loopOutput]
  cases hfv : resp.fault with
  | none => simp
  | some e => simp [List.filter_cons, isModelNameLine_err]

/-- Concrete instance of `output_order_preserved`. -/
theorem output_order_preserved_witness :
    keyMissing (some "k") = false
      ∧ (run (some "k") (ServiceResponse.mk [sampleEmbed, sampleGen] none)).output.filter
            isModelNameLine
          = (([sampleEmbed, sampleGen] : List Model).filter generateContentFilter).map
              (fun m => "Model Name: " ++ m.name) :=
  ⟨by decide,
    (output_order_preserved (some "k") (ServiceResponse.mk [sampleEmbed, sampleGen] none)
      (by decide)).1⟩

/-- Claim C5: whenever the credential is present the progress line is the
first thing printed; on a successful call the output is exactly the
progress line followed by the surviving descriptor blocks, and with zero
yielded descriptors it is the progress line alone. -/
theorem progress_then_blocks (apiKey : Option String) (resp : ServiceResponse)
    (hk : keyMissing apiKey = false) :
    (run apiKey resp).output.head? = some fetchingMsg
      ∧ (resp.fault = none →
          (run apiKey resp).output
            = fetchingMsg ::
                (resp.yielded.filter generateContentFilter).flatMap modelBlock)
      ∧ (resp.fault = none → resp.yielded = [] →
          (run apiKey resp).output = [fetchingMsg]) := by
  refine ⟨?_, ?_, ?_⟩
  · rw [run_output_of_key apiKey resp hk]
    rfl
  · intro hf
    rw [run_output_of_key apiKey resp hk, tryExceptOutput, hf, List.append_nil,
      loopOutput_eq_flatMap]
  · intro hf hy
    rw [run_output_of_key apiKey resp hk, tryExceptOutput, hf, hy]
    rfl

/-- Concrete instance of `progress_then_blocks`: zero descriptors. -/
theorem progress_then_blocks_witness :
    keyMissing (some "k") = false
      ∧ (run (some "k") (ServiceResponse.mk [] none)).output.head? = some fetchingMsg
      ∧ (run (some "k") (ServiceResponse.mk [] none)).output = [fetchingMsg] :=
  ⟨by decide,
    (progress_then_blocks (some "k") (ServiceResponse.mk [] none) (by decide)).1,
    (progress_then_blocks (some "k") (ServiceResponse.mk [] none) (by decide)).2.2 rfl rfl⟩

/-- Claim C6 (safety): no fault of the enumeration escapes the top level —
the run function is total, its `uncaught` component is `none` on every
path (missing credential, success, fetch failure) — and when a fault was
raised the last printed line is the fetch-failure diagnostic. -/
theorem no_uncaught_fault (apiKey : Option String) (resp : ServiceResponse) :
    (run apiKey resp).uncaught = none
      ∧ (∀ e, resp.fault = some e → keyMissing apiKey = false →
          (run apiKey resp).output.getLast? = some (errorFetchingMsg ++ e)) := by
  constructor
  · rw [run]
    split <;> rfl
  · intro e hf hk
    rw [run_output_of_key apiKey resp hk, tryExceptOutput, hf,
      ← List.cons_append, List.getLast?_concat]

/-- Concrete instance of `no_uncaught_fault`: a fault raised after one
yielded descriptor is still caught and reported last. -/
theorem no_uncaught_fault_witness :
    (run (some "k") (ServiceResponse.mk [sampleGen] (some "boom"))).uncaught = none
      ∧ (run (some "k") (ServiceResponse.mk [sampleGen] (some "boom"))).output.getLast?
          = some (errorFetchingMsg ++ "boom") :=
  ⟨(no_uncaught_fault (some "k") (ServiceResponse.mk [sampleGen] (some "boom"))).1,
    (no_uncaught_fault (some "k") (ServiceResponse.mk [sampleGen] (some "boom"))).2
      "boom" rfl (by decide)⟩

/-- Claim C7 (spec P5): the capability filter is a pure predicate and
applying it twice yields the same surviving subset as applying it once;
moreover running the loop on a pre-filtered list prints exactly what the
loop prints on the original list. -/
theorem filter_idempotent (ms : List Model) :
    (ms.filter generateContentFilter).filter generateContentFilter
        = ms.filter generateContentFilter
      ∧ loopOutput (ms.filter generateContentFilter) = loopOutput ms := by
  constructor
  · induction ms with
    | nil => rfl
    | cons m ms ih =>
      rw [List.filter_cons]
      by_cases hm : generateContentFilter m = true
      · rw [if_pos hm, List.filter_cons, if_pos hm, ih]
      · rw [if_neg hm, ih]
  · induction ms with
    | nil => rfl
    | cons m ms ih =>
      by_cases hm : generateContentFilter m = true
      · simp [List.filter_cons, loopOutput, hm, ih]
      · simp [List.filter_cons, loopOutput, hm, ih]

/-- Claim C8: a credential present but equal to the empty string is
indistinguishable from an absent one — Python's truthiness test sends the
run down the missing-credential path, with no network call. -/
theorem empty_key_missing_path (resp : ServiceResponse) :
    run (some "") resp = run none resp
      ∧ (run (some "") resp).output = [missingKeyMsg]
      ∧ (run (some "") resp).networkCalled = false :=
  ⟨rfl, rfl, rfl⟩

/-- Claim C9 (determinism): the complete printed output is a function of
the credential-lookup result and the service behaviour alone; two runs
with the same inputs print the same text. -/
theorem run_deterministic (k1 k2 : Option String) (r1 r2 : ServiceResponse)
    (hk : k1 = k2) (hr : r1 = r2) :
    (run k1 r1).output = (run k2 r2).output ∧ run k1 r1 = run k2 r2 := by
  subst hk
  subst hr
  exact ⟨rfl, rfl⟩

/-- Concrete instance of `run_deterministic`. -/
theorem run_deterministic_witness :
    (run (some "k") (ServiceResponse.mk [sampleGen] none)).output
        = (run (some "k") (ServiceResponse.mk [sampleGen] none)).output :=
  (run_deterministic (some "k") (some "k") (ServiceResponse.mk [sampleGen] none)
    (ServiceResponse.mk [sampleGen] none) rfl rfl).1

/-- Claim C10: on a successful run each surviving descriptor contributes
exactly four printed lines in fixed order — name, display name, methods,
separator — and the separator is exactly thirty hyphen characters. -/
theorem surviving_block_shape (apiKey : Option String) (resp : ServiceResponse)
    (hk : keyMissing apiKey = false) (hf : resp.fault = none) :
    (run apiKey resp).output
        = fetchingMsg ::
            (resp.yielded.filter generateContentFilter).flatMap (fun m =>
              ["Model Name: " ++ m.name,
               "Display Name: " ++ m.display_name,
               "Methods: " ++ pyListRepr m.supported_generation_methods,
               sepLine])
      ∧ sepLine = "------------------------------"
      ∧ sepLine.length = 30
      ∧ (∀ m, (modelBlock m).length = 4) := by
  refine ⟨?_, by decide, by decide, fun m => rfl⟩
  rw [run_output_of_key apiKey resp hk, tryExceptOutput, hf, List.append_nil,
    loopOutput_eq_flatMap]
  rfl

/-- Concrete instance of `surviving_block_shape`. -/
theorem surviving_block_shape_witness :
    keyMissing (some "k") = false
      ∧ (run (some "k") (ServiceResponse.mk [sampleGen, sampleEmbed] none)).output
          = fetchingMsg ::
              (([sampleGen, sampleEmbed] : List Model).filter
                  generateContentFilter).flatMap (fun m =>
                ["Model Name: " ++ m.name,
                 "Display Name: " ++ m.display_name,
                 "Methods: " ++ pyListRepr m.supported_generation_methods,
                 sepLine]) :=
  ⟨by decide,
    (surviving_block_shape (some "k") (ServiceResponse.mk [sampleGen, sampleEmbed] none)
      (by decide) rfl).1⟩

end ListModels
